import Mathlib

/-!
Verification of the route/schedule resolution pipeline in
`toolkit/gtfs/scenario.py` (the-one toolkit).

The file shallowly embeds `scenario.py`'s `main` as a pure Lean function.
The `lib.*` collaborator modules (`lib.gtfs`, `lib.project`, `lib.osm`,
`lib.one`, `lib.writer`) are part of the repository but their sources are
not available here; the pieces of them that the claims depend on are
modelled from the specification and carry a doc comment starting with
`Modelled from the spec:`.  Everything else is translated directly from
`scenario.py`.
-/

/-- A geographic or planar coordinate pair, modelling the `(lat, lon)` /
`(x, y)` tuples flowing through `scenario.py`.  Coordinates are rationals
(the pipeline's decimal arithmetic is exact at the modelled precision). -/
structure Point where
  x : ℚ
  y : ℚ
deriving DecidableEq, Repr

/-- A transit route as produced by `lib.commons.TransitRoute`: a name, an
ordered node polyline, an ordered stop subsequence, and (for map-extract
routes) the first/last stop identity used for reference matching. -/
structure TransitRoute where
  name : String
  nodes : List Point
  stops : List Point
  first : String
  last : String
deriving DecidableEq, Repr

/-- A schedule entry: start time, start stop id, end stop id, direction
(`write_csv_schedule`'s record shape, per the spec's Schedule model). -/
structure ScheduleEntry where
  start : Int
  fromStop : String
  toStop : String
  direction : Nat
deriving DecidableEq, Repr

/-- Modelled from the spec: the observable state of `lib.gtfs.GTFSReader`
after `load_feed`.  `shapeRouteList` is the data behind `route_names` /
`shape_paths` / `shape_stops`; `routesMeta` gives each feed route's
(name, first stop, last stop, stop count) used for reference matching;
`repTrips` holds the representative trip timestamps per route feeding the
Duration Estimator; `scheduleTable` is the resolved per-route schedule for
the run's weekday class and exception bound; `refRoutes` is the reference
list recorded by `set_ref_trips`. -/
structure Feed where
  hasShapes : Bool
  shapeRouteList : List TransitRoute
  routesMeta : List (String × String × String × Nat)
  repTrips : List (String × List Int)
  scheduleTable : List (String × List ScheduleEntry)
  refRoutes : List (String × String × String × Nat)
deriving DecidableEq, Repr

/-- The command-line arguments of `scenario.py` that `main` consumes. -/
structure Args where
  gtfs_file : String
  osm : Option String
  types : String
  weekday : Nat
  max_exceptions : Nat
deriving DecidableEq, Repr

/-- The run environment: the feed the `GTFSReader` would read, the routes
the `OsmRouteParser` would parse from the `--osm` file, and the ONE
project root directory (`Path.cwd().parent.parent`). -/
structure Env where
  feed : Feed
  osmRoutes : List TransitRoute
  oneDir : String
deriving DecidableEq, Repr

/-! ### Constants of `scenario.py` (lines 15-21) -/

def DATA_DIR : String := "data"

def NODES_FILE (name : String) : String := name ++ "_nodes.wkt"

def STOPS_FILE (name : String) : String := name ++ "_stops.csv"

def SCHEDULE_FILE (name : String) : String := name ++ "_schedule.csv"

def STATIONS_FILE : String := "stations.wkt"

def NR_OF_HOSTS : Int := 1

def HOST_ID_DELIM : String := "_"

/-- `os.path.join` for the relative paths `scenario.py` builds. -/
def pathJoin (a b : String) : String := a ++ "/" ++ b

/-- `basename_without_ext` (`scenario.py` lines 177-180): strip the
directory part, then the extension. -/
def basename_without_ext (file : String) : String :=
  let base := (file.splitOn "/").getLastD file
  let parts := base.splitOn "."
  if parts.length ≤ 1 then base else String.intercalate "." parts.dropLast

/-! ### Duration Estimator (spec section 4.4) -/

/-- Modelled from the spec: the inter-stop durations `lib.gtfs`'s
`trip_durations` derives from one representative trip's ordered
timestamps — one value per consecutive pair, the timestamp difference
clamped to zero when the pair is non-monotonic. -/
def clampedDiffs : List Int → List Int
  | a :: b :: rest => max (b - a) 0 :: clampedDiffs (b :: rest)
  | _ => []

/-- Modelled from the spec: the indices of non-monotonic timestamp pairs,
reported as data-integrity warnings by the Duration Estimator. -/
def nonMonoReports : List Int → List Nat
  | a :: b :: rest =>
      (if b < a then [0] else []) ++ (nonMonoReports (b :: rest)).map (· + 1)
  | _ => []

/-- Modelled from the spec: `GTFSReader.trip_durations` — the per-route
duration table, one clamped duration list per route's representative
trip. -/
def tripDurations (feed : Feed) : List (String × List Int) :=
  feed.repTrips.map (fun nt => (nt.1, clampedDiffs nt.2))

/-! ### Coordinate Projector (spec section 4.5) -/

/-- Modelled from the spec: the Projector's fixed geographic-degree to
metre scale (an affine transform is offset plus scale). -/
def SCALE : ℚ := 111320

/-- `scenario.py` line 80: `Projector(precision=2)`. -/
def PRECISION : Nat := 2

/-- Modelled from the spec: rounding a coordinate up at the given decimal
precision (the bounding box of the transformed set is rounded up). -/
def roundUpAt (prec : Nat) (q : ℚ) : ℚ :=
  (⌈q * (10 : ℚ) ^ prec⌉ : ℚ) / (10 : ℚ) ^ prec

/-- Minimum of a list of rationals (0 on the empty list; only used on
nonempty lists inside `fitFrame`). -/
def qmin : List ℚ → ℚ
  | [] => 0
  | [x] => x
  | x :: y :: t => min x (qmin (y :: t))

/-- Maximum of a list of rationals (0 on the empty list; only used on
nonempty lists inside `fitFrame`). -/
def qmax : List ℚ → ℚ
  | [] => 0
  | [x] => x
  | x :: y :: t => max x (qmax (y :: t))

/-- The fitted projection frame: the geographic minimum corner and the
resulting planar bounding width/height. -/
structure Frame where
  minX : ℚ
  minY : ℚ
  width : ℚ
  height : ℚ
deriving DecidableEq, Repr

/-- Modelled from the spec: `Projector.init_dimensions` — fit the affine
frame over the full point set so the minimum corner maps to (0,0), and
return the bounding width/height of the transformed set, rounded up at
the precision.  Fitting an empty set is the fatal global-precondition
violation: there is nothing meaningful to project. -/
def fitFrame (pts : List Point) : Option Frame :=
  match pts with
  | [] => none
  | p :: rest =>
      let xs := (p :: rest).map Point.x
      let ys := (p :: rest).map Point.y
      some
        { minX := qmin xs
          minY := qmin ys
          width := roundUpAt PRECISION (SCALE * (qmax xs - qmin xs))
          height := roundUpAt PRECISION (SCALE * (qmax ys - qmin ys)) }

/-- Modelled from the spec: applying the one fitted frame to a single
geographic coordinate — offset to the minimum corner, scale, and round at
the output precision. -/
def transformCoord (f : Frame) (p : Point) : Point :=
  { x := roundUpAt PRECISION (SCALE * (p.x - f.minX))
    y := roundUpAt PRECISION (SCALE * (p.y - f.minY)) }

/-- Modelled from the spec: `Projector.transform_coords`, mapping the
fitted transform over a coordinate sequence. -/
def transform_coords (f : Frame) (ps : List Point) : List Point :=
  ps.map (transformCoord f)

/-! ### ONE settings model (`lib.one`) -/

/-- A value stored under a settings key: a string, an integer, an integer
pair rendered as a range or dimension, or an integer count. -/
inductive SettingVal where
  | str : String → SettingVal
  | int : Int → SettingVal
deriving DecidableEq, Repr

/-- Modelled from the spec: `lib.one.HostGroup` — a named group of hosts
with ordered key/value settings and a list of ok-map files. -/
structure HostGroup where
  name : String
  idDelim : String
  settings : List (String × SettingVal)
  okmaps : List String
deriving DecidableEq, Repr

/-- `HostGroup(name, delim)` constructor. -/
def HostGroup.mk0 (name delim : String) : HostGroup :=
  { name := name, idDelim := delim, settings := [], okmaps := [] }

/-- `g.set(key, value)` appends a setting. -/
def HostGroup.setv (g : HostGroup) (k : String) (v : SettingVal) : HostGroup :=
  { g with settings := g.settings ++ [(k, v)] }

/-- `g.set_okmap(file)` records a map file the group may move on. -/
def HostGroup.set_okmap (g : HostGroup) (file : String) : HostGroup :=
  { g with okmaps := g.okmaps ++ [file] }

/-- Modelled from the spec: `lib.one.ScenarioSettings` — the settings
manifest under construction: the scenario name, the added host groups,
and the world-size / host-address-range keys `main` sets at the end. -/
structure ScenarioSettings where
  scenario : String
  groups : List HostGroup
  worldSize : Option (Int × Int)
  eventsHosts : Option (Int × Int)
deriving DecidableEq, Repr

/-! ### Route acquisition (`scenario.py` lines 23-54) -/

/-- Modelled from the spec: whether a map-extract reference route
(name, first stop, last stop, stop count) has a feed match — exact name
equality plus first/last stop identity plus equal stop count. -/
def refMatched (feed : Feed) (rf : String × String × String × Nat) : Bool :=
  feed.routesMeta.any (fun m => m == rf)

/-- Modelled from the spec: `GTFSReader.set_ref_trips` records the
map-extract reference routes that subsequent trip matching uses. -/
def set_ref_trips (feed : Feed) (refs : List (String × String × String × Nat)) :
    Feed :=
  { feed with refRoutes := refs }

/-- Modelled from the spec: `GTFSReader.build_ref_trips` derives the
reference trips from the feed's own shapes, leaving the feed's observable
route data unchanged. -/
def build_ref_trips (feed : Feed) : Feed := feed

/-- `osm_routes` (`scenario.py` lines 23-34): parse all map-extract
routes, hand their (name, first, last, stop count) reference tuples to
the reader, and return the full parsed route list. -/
def osm_routes (env : Env) : Feed × List TransitRoute :=
  let routes := env.osmRoutes
  let ref_routes := routes.map (fun r => (r.name, r.first, r.last, r.stops.length))
  (set_ref_trips env.feed ref_routes, routes)

/-- `shape_routes` (`scenario.py` lines 36-54): build one `TransitRoute`
per feed route name from the feed's native shape paths and shape stops. -/
def shape_routes (feed : Feed) : Feed × List TransitRoute :=
  let feed := build_ref_trips feed
  (feed,
   feed.shapeRouteList.map (fun r =>
     { name := r.name, nodes := r.nodes, stops := r.stops, first := "", last := "" }))

/-- `with_shapes = not args.osm` (`scenario.py` line 59). -/
def with_shapes (args : Args) : Bool := args.osm.isNone

/-- The route list `main` resolves (`scenario.py` lines 65-68): the full
map-extract parse when `--osm` is given, the feed's shape routes
otherwise. -/
def routesOf (env : Env) (args : Args) : List TransitRoute :=
  match args.osm with
  | some _ => (osm_routes env).2
  | none => (shape_routes env.feed).2

/-- The point set `main` fits the projection over (`scenario.py` lines
74-76): the union of every resolved route's nodes.  Python's `set` is
modelled as a first-occurrence deduplicated list. -/
def allPoints (env : Env) (args : Args) : List Point :=
  ((routesOf env args).flatMap TransitRoute.nodes).dedup

/-! ### The pipeline body (`scenario.py` lines 56-175) -/

/-- The contents `main` hands to a writer for one file. -/
inductive FileContent where
  | wktLinestring : List Point → FileContent
  | csvStops : List Point → Option (List Int) → FileContent
  | csvSchedule : Option (List ScheduleEntry) → FileContent
  | wktPoints : List Point → FileContent
deriving DecidableEq, Repr

/-- Everything a successful run writes: the per-route and stations files
(in write order) and the single settings manifest. -/
structure Output where
  files : List (String × FileContent)
  settingsPath : String
  settings : ScenarioSettings
deriving DecidableEq, Repr

/-- The scenario output directory (`scenario.py` lines 85-86). -/
def outDirOf (env : Env) (args : Args) : String :=
  pathJoin (pathJoin env.oneDir DATA_DIR) (basename_without_ext args.gtfs_file)

/-- The per-route nodes file path (`nodes_file.format(name)`). -/
def nodesPath (env : Env) (args : Args) (name : String) : String :=
  pathJoin (outDirOf env args) (NODES_FILE name)

/-- The per-route stops file path (`stops_file.format(name)`). -/
def stopsPath (env : Env) (args : Args) (name : String) : String :=
  pathJoin (outDirOf env args) (STOPS_FILE name)

/-- The per-route schedule file path (`schedule_file.format(name)`). -/
def schedulePath (env : Env) (args : Args) (name : String) : String :=
  pathJoin (outDirOf env args) (SCHEDULE_FILE name)

/-- The three per-route output paths `main` derives from one route
name: the nodes, stops and schedule files. -/
def pathTriple (env : Env) (args : Args) (name : String) : List String :=
  [nodesPath env args name, stopsPath env args name, schedulePath env args name]

/-- The shared stations file path. -/
def stationsPath (env : Env) (args : Args) : String :=
  pathJoin (outDirOf env args) STATIONS_FILE

/-- The station set (`scenario.py` lines 99, 108): the projected stop
coordinates of all routes, deduplicated (Python `set` semantics). -/
def stationsOf (env : Env) (args : Args) (f : Frame) : List Point :=
  ((routesOf env args).flatMap (fun r => transform_coords f r.stops)).dedup

/-- The host group `main` creates for one route (`scenario.py` lines
110-120). -/
def routeGroup (env : Env) (args : Args) (r : TransitRoute) : HostGroup :=
  ((((((HostGroup.mk0 r.name HOST_ID_DELIM).setv
    "movementModel" (SettingVal.str "TransitMapMovement")).setv
    "routeFile" (SettingVal.str (stopsPath env args r.name))).setv
    "scheduleFile" (SettingVal.str (schedulePath env args r.name))).setv
    "routeType" (SettingVal.int 2)).setv
    "nrofHosts" (SettingVal.int NR_OF_HOSTS)).set_okmap
    (nodesPath env args r.name)

/-- The stations host group (`scenario.py` lines 150-155). -/
def stationGroup (env : Env) (args : Args) (stations : List Point) : HostGroup :=
  ((((HostGroup.mk0 "S" HOST_ID_DELIM).setv
    "movementModel" (SettingVal.str "StationaryMultiPointMovement")).setv
    "stationarySystemNr" (SettingVal.int 1)).setv
    "pointFile" (SettingVal.str (stationsPath env args))).setv
    "nrofHosts" (SettingVal.int stations.length)

/-- The three files `main` writes for one route (`scenario.py` lines
122-144), with coordinates transformed by the one fitted frame. -/
def routeFiles (env : Env) (args : Args) (f : Frame) (r : TransitRoute) :
    List (String × FileContent) :=
  [ (nodesPath env args r.name, FileContent.wktLinestring (transform_coords f r.nodes)),
    (stopsPath env args r.name,
      FileContent.csvStops (transform_coords f r.stops)
        ((tripDurations env.feed).lookup r.name)),
    (schedulePath env args r.name,
      FileContent.csvSchedule (env.feed.scheduleTable.lookup r.name)) ]

/-- The output of a run whose projection frame fitting succeeded
(`scenario.py` lines 90-175, straight-line translation). -/
def mainOutput (env : Env) (args : Args) (f : Frame) : Output :=
  let scenario := basename_without_ext args.gtfs_file
  let routes := routesOf env args
  let stations := stationsOf env args f
  { files :=
      routes.flatMap (routeFiles env args f) ++
        [(stationsPath env args, FileContent.wktPoints stations)]
    settingsPath := pathJoin env.oneDir (scenario ++ "_settings.txt")
    settings :=
      { scenario := scenario
        groups := routes.map (routeGroup env args) ++ [stationGroup env args stations]
        worldSize := some (⌈f.width⌉, ⌈f.height⌉)
        eventsHosts :=
          some (0, (routes.length : Int) * NR_OF_HOSTS + (stations.length : Int) - 1) } }

/-- `main` (`scenario.py` lines 56-175; named `mainRun` here because
`main` is a reserved entry point): resolve the route set, fit the
projection frame once over all route nodes, and produce every output from
that one frame.  Fitting over an empty point set is the fatal
global-precondition violation raised before any file is written
(`init_dimensions` at line 81 precedes every write, lines 88-175). -/
def mainRun (env : Env) (args : Args) : Except String Output :=
  match fitFrame (allPoints env args) with
  | none => Except.error "no points to project"
  | some f => Except.ok (mainOutput env args f)

/-! ### Helper lemmas: list minima and maxima -/

theorem qmin_le_of_mem : ∀ {l : List ℚ} {a : ℚ}, a ∈ l → qmin l ≤ a := by
  intro l
  induction l with
  | nil => intro a h; cases h
  | cons x t ih =>
      intro a h
      cases t with
      | nil =>
          rcases List.mem_singleton.mp h with rfl
          simp [qmin]
      | cons y u =>
          rcases List.mem_cons.mp h with rfl | hm
          · exact min_le_left _ _
          · exact le_trans (min_le_right _ _) (ih hm)

theorem qmin_mem : ∀ {l : List ℚ}, l ≠ [] → qmin l ∈ l := by
  intro l
  induction l with
  | nil => intro h; exact absurd rfl h
  | cons x t ih =>
      intro _
      cases t with
      | nil => simp [qmin]
      | cons y u =>
          rcases min_choice x (qmin (y :: u)) with hc | hc
          · simp [qmin, hc]
          · have := ih (List.cons_ne_nil y u)
            simp only [qmin, hc]
            exact List.mem_cons_of_mem _ this

theorem le_qmax_of_mem : ∀ {l : List ℚ} {a : ℚ}, a ∈ l → a ≤ qmax l := by
  intro l
  induction l with
  | nil => intro a h; cases h
  | cons x t ih =>
      intro a h
      cases t with
      | nil =>
          rcases List.mem_singleton.mp h with rfl
          simp [qmax]
      | cons y u =>
          rcases List.mem_cons.mp h with rfl | hm
          · exact le_max_left _ _
          · exact le_trans (ih hm) (le_max_right _ _)

theorem qmax_mem : ∀ {l : List ℚ}, l ≠ [] → qmax l ∈ l := by
  intro l
  induction l with
  | nil => intro h; exact absurd rfl h
  | cons x t ih =>
      intro _
      cases t with
      | nil => simp [qmax]
      | cons y u =>
          rcases max_choice x (qmax (y :: u)) with hc | hc
          · simp [qmax, hc]
          · have := ih (List.cons_ne_nil y u)
            simp only [qmax, hc]
            exact List.mem_cons_of_mem _ this

/-! ### Helper lemmas: precision rounding -/

theorem roundUpAt_zero (n : Nat) : roundUpAt n 0 = 0 := by
  simp [roundUpAt]

theorem roundUpAt_mono {n : Nat} {a b : ℚ} (h : a ≤ b) :
    roundUpAt n a ≤ roundUpAt n b := by
  unfold roundUpAt
  have hp : (0 : ℚ) < (10 : ℚ) ^ n := by positivity
  have hm : a * (10 : ℚ) ^ n ≤ b * (10 : ℚ) ^ n :=
    mul_le_mul_of_nonneg_right h (le_of_lt hp)
  have hc : (⌈a * (10 : ℚ) ^ n⌉ : ℤ) ≤ ⌈b * (10 : ℚ) ^ n⌉ := Int.ceil_le_ceil hm
  exact div_le_div_of_nonneg_right (by exact_mod_cast hc) hp.le

theorem roundUpAt_nonneg {n : Nat} {q : ℚ} (h : 0 ≤ q) : 0 ≤ roundUpAt n q := by
  have := roundUpAt_mono (n := n) h
  simpa [roundUpAt_zero] using this

/-! ### Helper lemmas: duration estimator -/

theorem clampedDiffs_length : ∀ ts : List Int,
    (clampedDiffs ts).length = ts.length - 1 := by
  intro ts
  induction ts with
  | nil => rfl
  | cons a t ih =>
      cases t with
      | nil => rfl
      | cons b u =>
          simp only [clampedDiffs, List.length_cons] at ih ⊢
          omega

theorem clampedDiffs_nonneg : ∀ {ts : List Int} {d : Int},
    d ∈ clampedDiffs ts → 0 ≤ d := by
  intro ts
  induction ts with
  | nil => intro d h; cases h
  | cons a t ih =>
      intro d h
      cases t with
      | nil => cases h
      | cons b u =>
          rcases List.mem_cons.mp h with rfl | hm
          · exact le_max_right _ _
          · exact ih hm

theorem clampedDiffs_getD : ∀ (ts : List Int) (i : Nat), i + 1 < ts.length →
    (clampedDiffs ts).getD i 0 = max (ts.getD (i + 1) 0 - ts.getD i 0) 0 := by
  intro ts
  induction ts with
  | nil => intro i h; simp at h
  | cons a t ih =>
      intro i h
      cases t with
      | nil => simp at h
      | cons b u =>
          cases i with
          | zero => simp [clampedDiffs]
          | succ j =>
              have h' : j + 1 < (b :: u).length := by
                simpa using Nat.lt_of_succ_lt_succ h
              simpa [clampedDiffs] using ih j h'

theorem mem_nonMonoReports : ∀ (ts : List Int) (i : Nat), i + 1 < ts.length →
    (ts.getD (i + 1) 0 < ts.getD i 0 ↔ i ∈ nonMonoReports ts) := by
  intro ts
  induction ts with
  | nil => intro i h; simp at h
  | cons a t ih =>
      intro i h
      cases t with
      | nil => simp at h
      | cons b u =>
          cases i with
          | zero =>
              simp only [nonMonoReports, List.mem_append, List.mem_map,
                List.getD_cons_succ, List.getD_cons_zero]
              constructor
              · intro hlt
                left
                simp [hlt]
              · rintro (hin | ⟨j, _, hj⟩)
                · by_cases hlt : b < a
                  · exact hlt
                  · simp [hlt] at hin
                · omega
          | succ j =>
              have h' : j + 1 < (b :: u).length := by
                simpa using Nat.lt_of_succ_lt_succ h
              have := ih j h'
              simp only [nonMonoReports, List.mem_append, List.mem_map,
                List.getD_cons_succ]
              constructor
              · intro hlt
                right
                exact ⟨j, this.mp hlt, rfl⟩
              · rintro (hin | ⟨k, hk, hkj⟩)
                · split at hin <;> simp at hin
                · have hkj2 : k = j := by omega
                  subst hkj2
                  exact (ih _ h').mpr hk

/-! ### Helper lemmas: pipeline destructuring -/

theorem mainRun_ok_elim {env : Env} {args : Args} {out : Output}
    (h : mainRun env args = Except.ok out) :
    ∃ f, fitFrame (allPoints env args) = some f ∧ out = mainOutput env args f := by
  unfold mainRun at h
  split at h
  · cases h
  · next f hf =>
      refine ⟨f, hf, ?_⟩
      injection h with h2
      exact h2.symm

theorem tripDurations_lookup_elim {feed : Feed} {name : String} {ds : List Int}
    (h : (tripDurations feed).lookup name = some ds) :
    ∃ ts, ds = clampedDiffs ts := by
  unfold tripDurations at h
  revert h
  induction feed.repTrips with
  | nil => intro h; simp [List.lookup] at h
  | cons p t ih =>
      intro h
      simp only [List.map_cons, List.lookup] at h
      split at h
      · exact ⟨p.2, by injection h with h2; exact h2.symm⟩
      · exact ih h

/-! ### Helper lemmas: strings and file paths -/

theorem strData_append (s t : String) : (s ++ t).data = s.data ++ t.data := rfl

theorem strAppend_cancel_left {s u v : String} (h : s ++ u = s ++ v) : u = v := by
  have hd : s.data ++ u.data = s.data ++ v.data := by
    have := congrArg String.data h
    simpa [strData_append] using this
  exact String.ext (List.append_inj hd rfl).2

theorem strAppend_cancel_right {u v t : String} (h : u ++ t = v ++ t) : u = v := by
  have hd : u.data ++ t.data = v.data ++ t.data := by
    have := congrArg String.data h
    simpa [strData_append] using this
  have hlen : u.data.length = v.data.length := by
    have h2 := congrArg List.length hd
    simp only [List.length_append] at h2
    omega
  exact String.ext (List.append_inj hd hlen).1

/-- Two strings with different reversed `k`-prefixes of their suffixes can
never be equal, whatever is prepended to each. -/
theorem strAppend_ne_of_suffix (k : Nat) {u v : String}
    (hu : k ≤ u.data.length) (hv : k ≤ v.data.length)
    (hne : u.data.reverse.take k ≠ v.data.reverse.take k) :
    ∀ s t : String, s ++ u ≠ t ++ v := by
  intro s t h
  apply hne
  have hd : s.data ++ u.data = t.data ++ v.data := by
    have := congrArg String.data h
    simpa [strData_append] using this
  have hr : u.data.reverse ++ s.data.reverse = v.data.reverse ++ t.data.reverse := by
    have := congrArg List.reverse hd
    simpa [List.reverse_append] using this
  have := congrArg (List.take k) hr
  rwa [List.take_append_of_le_length (by simpa using hu),
    List.take_append_of_le_length (by simpa using hv)] at this

/-! ### Helper lemmas: the fitted frame -/

theorem SCALE_pos : (0 : ℚ) < SCALE := by norm_num [SCALE]

theorem fitFrame_some_elim {pts : List Point} {f : Frame}
    (hf : fitFrame pts = some f) :
    pts ≠ [] ∧
    f.minX = qmin (pts.map Point.x) ∧
    f.minY = qmin (pts.map Point.y) ∧
    f.width = roundUpAt PRECISION
      (SCALE * (qmax (pts.map Point.x) - qmin (pts.map Point.x))) ∧
    f.height = roundUpAt PRECISION
      (SCALE * (qmax (pts.map Point.y) - qmin (pts.map Point.y))) := by
  cases pts with
  | nil => cases hf
  | cons p rest =>
      refine ⟨List.cons_ne_nil p rest, ?_⟩
      simp only [fitFrame] at hf
      injection hf with h2
      subst h2
      exact ⟨rfl, rfl, rfl, rfl⟩

theorem transform_bounds {pts : List Point} {f : Frame}
    (hf : fitFrame pts = some f) :
    (∀ q ∈ transform_coords f pts,
        0 ≤ q.x ∧ q.x ≤ f.width ∧ 0 ≤ q.y ∧ q.y ≤ f.height) ∧
    (∃ q ∈ transform_coords f pts, q.x = 0) ∧
    (∃ q ∈ transform_coords f pts, q.y = 0) ∧
    (∃ q ∈ transform_coords f pts, q.x = f.width) ∧
    (∃ q ∈ transform_coords f pts, q.y = f.height) := by
  obtain ⟨hne, hminX, hminY, hw, hh⟩ := fitFrame_some_elim hf
  have hxne : pts.map Point.x ≠ [] := by
    simpa using hne
  have hyne : pts.map Point.y ≠ [] := by
    simpa using hne
  constructor
  · intro q hq
    rcases List.mem_map.mp hq with ⟨p, hp, rfl⟩
    have hx1 : qmin (pts.map Point.x) ≤ p.x :=
      qmin_le_of_mem (List.mem_map_of_mem Point.x hp)
    have hx2 : p.x ≤ qmax (pts.map Point.x) :=
      le_qmax_of_mem (List.mem_map_of_mem Point.x hp)
    have hy1 : qmin (pts.map Point.y) ≤ p.y :=
      qmin_le_of_mem (List.mem_map_of_mem Point.y hp)
    have hy2 : p.y ≤ qmax (pts.map Point.y) :=
      le_qmax_of_mem (List.mem_map_of_mem Point.y hp)
    refine ⟨?_, ?_, ?_, ?_⟩
    · exact roundUpAt_nonneg (mul_nonneg SCALE_pos.le (by rw [hminX]; linarith))
    · rw [hw]
      exact roundUpAt_mono
        (mul_le_mul_of_nonneg_left (by rw [hminX]; linarith) SCALE_pos.le)
    · exact roundUpAt_nonneg (mul_nonneg SCALE_pos.le (by rw [hminY]; linarith))
    · rw [hh]
      exact roundUpAt_mono
        (mul_le_mul_of_nonneg_left (by rw [hminY]; linarith) SCALE_pos.le)
  refine ⟨?_, ?_, ?_, ?_⟩
  · rcases List.mem_map.mp (qmin_mem hxne) with ⟨p, hp, hpx⟩
    refine ⟨transformCoord f p, List.mem_map_of_mem _ hp, ?_⟩
    simp [transformCoord, hminX, hpx, roundUpAt_zero]
  · rcases List.mem_map.mp (qmin_mem hyne) with ⟨p, hp, hpy⟩
    refine ⟨transformCoord f p, List.mem_map_of_mem _ hp, ?_⟩
    simp [transformCoord, hminY, hpy, roundUpAt_zero]
  · rcases List.mem_map.mp (qmax_mem hxne) with ⟨p, hp, hpx⟩
    refine ⟨transformCoord f p, List.mem_map_of_mem _ hp, ?_⟩
    simp [transformCoord, hminX, hpx, hw]
  · rcases List.mem_map.mp (qmax_mem hyne) with ⟨p, hp, hpy⟩
    refine ⟨transformCoord f p, List.mem_map_of_mem _ hp, ?_⟩
    simp [transformCoord, hminY, hpy, hh]

/-! ### Run projections and concrete inputs used by witnesses -/

/-- Whether a run completed (no fatal precondition violation). -/
def runSucceeds : Except String Output → Bool
  | Except.ok _ => true
  | Except.error _ => false

/-- The paths of the files a run wrote (none on a fatal run). -/
def outPaths : Except String Output → List String
  | Except.ok o => o.files.map Prod.fst
  | Except.error _ => []

/-- A small concrete route: two nodes, both of which are stops. -/
def wRoute : TransitRoute :=
  { name := "A"
    nodes := [⟨0, 0⟩, ⟨1, 1⟩]
    stops := [⟨0, 0⟩, ⟨1, 1⟩]
    first := "s1"
    last := "s2" }

/-- A concrete feed with native shapes for `wRoute`. -/
def wFeed : Feed :=
  { hasShapes := true
    shapeRouteList := [wRoute]
    routesMeta := [("A", "s1", "s2", 2)]
    repTrips := [("A", [0, 60, 50])]
    scheduleTable := [("A", [⟨0, "s1", "s2", 0⟩])]
    refRoutes := [] }

/-- A concrete native-mode environment. -/
def wEnv : Env := { feed := wFeed, osmRoutes := [], oneDir := "one" }

/-- Concrete native-mode arguments. -/
def wArgs : Args :=
  { gtfs_file := "feed.zip", osm := none, types := "0", weekday := 0,
    max_exceptions := 180 }

/-- The frame `fitFrame` fits over the node pair (0,0), (1,1): width and
height are 111320 metres (one degree at the modelled scale). -/
def unitFrame : Frame := { minX := 0, minY := 0, width := 111320, height := 111320 }

/-- The output of the concrete native-mode run. -/
def wOut : Output := mainOutput wEnv wArgs unitFrame

/-- An environment with no routes at all (fatal precondition). -/
def emptyEnv : Env :=
  { feed :=
      { hasShapes := false, shapeRouteList := [], routesMeta := [],
        repTrips := [], scheduleTable := [], refRoutes := [] }
    osmRoutes := []
    oneDir := "one" }

/-- A concrete feed that carries native shape geometry. -/
def c3Feed : Feed :=
  { hasShapes := true
    shapeRouteList := [wRoute]
    routesMeta := [("A", "s1", "s2", 2)]
    repTrips := []
    scheduleTable := []
    refRoutes := [] }

/-- A concrete map-extract route distinct from the feed's shape route. -/
def c3OsmRoute : TransitRoute :=
  { name := "B"
    nodes := [⟨2, 2⟩, ⟨3, 3⟩]
    stops := [⟨2, 2⟩]
    first := "t1"
    last := "t2" }

/-- Environment whose feed has shapes while an `--osm` file is supplied. -/
def c3Env : Env := { feed := c3Feed, osmRoutes := [c3OsmRoute], oneDir := "one" }

/-- Arguments passing `--osm` despite the feed's shapes. -/
def c3Args : Args :=
  { gtfs_file := "feed.zip", osm := some "city.osm", types := "0", weekday := 0,
    max_exceptions := 180 }

/-- A concrete feed whose only route "12" has 7 stops. -/
def c2Feed : Feed :=
  { hasShapes := false
    shapeRouteList := []
    routesMeta := [("12", "A", "Z", 7)]
    repTrips := []
    scheduleTable := []
    refRoutes := [] }

/-- A map-extract route "12" with the same endpoints but 8 stops: no feed
match under name/endpoint/stop-count equality. -/
def c2Route : TransitRoute :=
  { name := "12"
    nodes := [⟨0, 0⟩, ⟨1, 1⟩]
    stops := [⟨0, 0⟩, ⟨0, 1⟩, ⟨1, 0⟩, ⟨1, 1⟩, ⟨0, 2⟩, ⟨2, 0⟩, ⟨2, 2⟩, ⟨2, 1⟩]
    first := "A"
    last := "Z" }

/-- Reconciliation-mode environment containing only the unmatched route. -/
def c2Env : Env := { feed := c2Feed, osmRoutes := [c2Route], oneDir := "one" }

/-- Reconciliation-mode arguments. -/
def c2Args : Args :=
  { gtfs_file := "feed.zip", osm := some "city.osm", types := "0", weekday := 0,
    max_exceptions := 180 }

/-- The output of the unmatched-route reconciliation run. -/
def c2Out : Output := mainOutput c2Env c2Args unitFrame

/-! ### Helper lemmas: concrete runs -/

theorem mainRun_ok_of_fit {env : Env} {args : Args} {f : Frame}
    (hf : fitFrame (allPoints env args) = some f) :
    mainRun env args = Except.ok (mainOutput env args f) := by
  unfold mainRun
  rw [hf]

theorem fitFrame_unit : fitFrame [(⟨0, 0⟩ : Point), ⟨1, 1⟩] = some unitFrame := by
  show some _ = some unitFrame
  unfold unitFrame
  congr 1
  have h0 : qmin [(0 : ℚ), 1] = 0 := by
    simp [qmin]
  have h1 : qmax [(0 : ℚ), 1] = 1 := by
    simp [qmax]
  have hup : roundUpAt PRECISION SCALE = 111320 := by
    norm_num [roundUpAt, SCALE, PRECISION]
  simp only [List.map_cons, List.map_nil]
  simp [h0, h1, hup]

theorem allPoints_w : allPoints wEnv wArgs = [⟨0, 0⟩, ⟨1, 1⟩] := by decide

theorem allPoints_c2 : allPoints c2Env c2Args = [⟨0, 0⟩, ⟨1, 1⟩] := by decide

theorem wRun_ok : mainRun wEnv wArgs = Except.ok wOut :=
  mainRun_ok_of_fit (by rw [allPoints_w]; exact fitFrame_unit)

theorem c2Run_ok : mainRun c2Env c2Args = Except.ok c2Out :=
  mainRun_ok_of_fit (by rw [allPoints_c2]; exact fitFrame_unit)

/-- Lemma: replacing the representative trips does not change the
resolved route set. -/
theorem routesOf_repTrips (env : Env) (args : Args) (trips : List (String × List Int)) :
    routesOf { env with feed := { env.feed with repTrips := trips } } args =
      routesOf env args := by
  unfold routesOf osm_routes shape_routes set_ref_trips build_ref_trips
  cases args.osm <;> rfl

/-! ### Claim C4 — determinism of the pipeline -/

/-- Claim C4: the full pipeline is deterministic — two runs on identical
feed/map-extract input with identical parameters produce identical
schedules, geometries, durations and projected coordinates (the embedding
is a pure function; Python set iteration is modelled as deterministic
first-occurrence order, and no derivation uses randomness). -/
theorem pipeline_deterministic (env1 env2 : Env) (args1 args2 : Args)
    (henv : env1 = env2) (hargs : args1 = args2) :
    mainRun env1 args1 = mainRun env2 args2 := by
  subst henv
  subst hargs
  rfl

/-- Witness for C4 at the concrete environment. -/
theorem pipeline_deterministic_witness :
    mainRun wEnv wArgs = mainRun wEnv wArgs :=
  pipeline_deterministic wEnv wEnv wArgs wArgs rfl rfl

/-! ### Claim C5 — durations never negative, clamped and reported -/

/-- Claim C5: every inter-stop duration the estimator produces is
non-negative; a non-monotonic timestamp pair has its duration clamped to
exactly zero and its index reported; and the run's success never depends
on the representative trips, so a bad pair cannot abort the run. -/
theorem durations_nonneg_clamped :
    (∀ feed : Feed, ∀ name : String, ∀ ds : List Int,
       (tripDurations feed).lookup name = some ds → ∀ d ∈ ds, 0 ≤ d) ∧
    (∀ ts : List Int, ∀ i : Nat, i + 1 < ts.length →
       ts.getD (i + 1) 0 < ts.getD i 0 →
         (clampedDiffs ts).getD i 0 = 0 ∧ i ∈ nonMonoReports ts) ∧
    (∀ env : Env, ∀ args : Args, ∀ trips : List (String × List Int),
       runSucceeds (mainRun { env with feed := { env.feed with repTrips := trips } } args) =
         runSucceeds (mainRun env args)) := by
  refine ⟨?_, ?_, ?_⟩
  · intro feed name ds h d hd
    obtain ⟨ts, rfl⟩ := tripDurations_lookup_elim h
    exact clampedDiffs_nonneg hd
  · intro ts i h hlt
    constructor
    · rw [clampedDiffs_getD ts i h]
      exact max_eq_right (by omega)
    · exact (mem_nonMonoReports ts i h).mp hlt
  · intro env args trips
    have hpts : allPoints { env with feed := { env.feed with repTrips := trips } } args =
        allPoints env args := by
      unfold allPoints
      rw [routesOf_repTrips]
    unfold mainRun
    rw [hpts]
    cases fitFrame (allPoints env args) <;> rfl

/-- Witness for C5: the non-monotonic pair (60, 50) in the concrete trip
is clamped to zero and reported at index 1. -/
theorem durations_nonneg_clamped_witness :
    (clampedDiffs [0, 60, 50]).getD 1 0 = 0 ∧ 1 ∈ nonMonoReports [0, 60, 50] :=
  durations_nonneg_clamped.2.1 [0, 60, 50] 1 (by decide) (by decide)

/-! ### Claim C7 — fatal precondition, no partial output -/

/-- Claim C7: when zero routes survive resolution or there are zero
points to project, the run fails fatally before the output directory is
even created (`init_dimensions` precedes every write in `main`), so no
per-route file, stations file or settings file is produced. -/
theorem fatal_no_partial_output (env : Env) (args : Args)
    (h : routesOf env args = [] ∨ allPoints env args = []) :
    mainRun env args = Except.error "no points to project" ∧
    outPaths (mainRun env args) = [] ∧
    ∀ out : Output, mainRun env args ≠ Except.ok out := by
  have hpts : allPoints env args = [] := by
    rcases h with h | h
    · unfold allPoints
      rw [h]
      rfl
    · exact h
  have hrun : mainRun env args = Except.error "no points to project" := by
    unfold mainRun
    rw [hpts]
    rfl
  refine ⟨hrun, ?_, ?_⟩
  · rw [hrun]
    rfl
  · intro out hout
    rw [hrun] at hout
    cases hout

/-- Witness for C7: the empty environment fails fatally and writes
nothing. -/
theorem fatal_no_partial_output_witness :
    mainRun emptyEnv wArgs = Except.error "no points to project" :=
  (fatal_no_partial_output emptyEnv wArgs (Or.inl (by decide))).1

/-! ### Claim C3 — mode selection -/

/-- Counterexample to claim C3 as stated: a run whose feed carries native
shape geometry but which resolves routes from the map-extract source,
because the mode is chosen by the `--osm` argument (line 65), not by
whether the feed has shape data. -/
theorem mode_selection_counterexample :
    c3Env.feed.hasShapes = true ∧
    routesOf c3Env c3Args ≠ (shape_routes c3Env.feed).2 ∧
    routesOf c3Env c3Args = (osm_routes c3Env).2 := by
  refine ⟨rfl, ?_, rfl⟩
  decide

/-- Claim C3 as amended: the two modes are mutually exclusive and are
selected by whether an `--osm` map-extract file is supplied on the
command line — the map-extract source is used exactly when `--osm` is
given, and native feed shapes (with shape loading requested) exactly
otherwise. -/
theorem mode_selected_by_cli (env : Env) (args : Args) :
    (args.osm.isSome = true →
       routesOf env args = (osm_routes env).2 ∧ with_shapes args = false) ∧
    (args.osm = none →
       routesOf env args = (shape_routes env.feed).2 ∧ with_shapes args = true) := by
  cases harg : args.osm with
  | none =>
      constructor
      · intro h
        simp at h
      · intro _
        unfold routesOf with_shapes
        rw [harg]
        exact ⟨rfl, rfl⟩
  | some o =>
      constructor
      · intro _
        unfold routesOf with_shapes
        rw [harg]
        exact ⟨rfl, rfl⟩
      · intro h
        simp at h

/-- Witness for amended C3 at the concrete reconciliation run. -/
theorem mode_selected_by_cli_witness :
    routesOf c3Env c3Args = (osm_routes c3Env).2 ∧ with_shapes c3Args = false :=
  (mode_selected_by_cli c3Env c3Args).1 (by decide)

/-! ### Claim C2 — unmatched map-extract routes -/

/-- Counterexample to claim C2 as stated: the map-extract route "12" has
no feed match (stop counts 8 vs 7), yet it stays in the resolved route
set, the run succeeds, and its per-route nodes file is produced —
`osm_routes` returns every parsed route (line 34) and `main` writes files
for each of them (lines 101-144). -/
theorem unmatched_route_kept_counterexample :
    refMatched c2Env.feed ("12", "A", "Z", 8) = false ∧
    routesOf c2Env c2Args = [c2Route] ∧
    runSucceeds (mainRun c2Env c2Args) = true ∧
    nodesPath c2Env c2Args "12" ∈ outPaths (mainRun c2Env c2Args) := by
  refine ⟨rfl, rfl, ?_, ?_⟩
  · rw [c2Run_ok]
    rfl
  · rw [c2Run_ok]
    show nodesPath c2Env c2Args "12" ∈ c2Out.files.map Prod.fst
    have hro : routesOf c2Env c2Args = [c2Route] := rfl
    show nodesPath c2Env c2Args "12" ∈
      ((routesOf c2Env c2Args).flatMap (routeFiles c2Env c2Args unitFrame) ++
        [(stationsPath c2Env c2Args,
          FileContent.wktPoints (stationsOf c2Env c2Args unitFrame))]).map Prod.fst
    rw [hro]
    simp [routeFiles, c2Route]

/-- Claim C2 as amended: in reconciliation mode a map-extract route with
no feed match is not dropped — the output route set is exactly the full
parsed map-extract route list, and per-route output files are produced
for every parsed route, matched or not (only the schedule/duration
lookups for such a route may come up empty). -/
theorem osm_routes_never_dropped (env : Env) (args : Args) (o : String)
    (out : Output) (hosm : args.osm = some o)
    (hok : mainRun env args = Except.ok out) :
    routesOf env args = env.osmRoutes ∧
    ∀ r ∈ env.osmRoutes, nodesPath env args r.name ∈ out.files.map Prod.fst := by
  obtain ⟨f, hf, rfl⟩ := mainRun_ok_elim hok
  have hro : routesOf env args = env.osmRoutes := by
    unfold routesOf
    rw [hosm]
    rfl
  refine ⟨hro, ?_⟩
  intro r hr
  show nodesPath env args r.name ∈
    ((routesOf env args).flatMap (routeFiles env args f) ++
      [(stationsPath env args, FileContent.wktPoints (stationsOf env args f))]).map
      Prod.fst
  rw [List.map_append]
  apply List.mem_append_left
  apply List.mem_map.mpr
  refine ⟨(nodesPath env args r.name,
    FileContent.wktLinestring (transform_coords f r.nodes)), ?_, rfl⟩
  apply List.mem_flatMap.mpr
  refine ⟨r, ?_, ?_⟩
  · rw [hro]
    exact hr
  · simp [routeFiles]

/-- Witness for amended C2 at the concrete reconciliation run. -/
theorem osm_routes_never_dropped_witness :
    routesOf c2Env c2Args = c2Env.osmRoutes :=
  (osm_routes_never_dropped c2Env c2Args "city.osm" c2Out rfl c2Run_ok).1

/-! ### Claim C6 — projector bounds and world size -/

theorem fitFrame_w : fitFrame (allPoints wEnv wArgs) = some unitFrame := by
  rw [allPoints_w]
  exact fitFrame_unit

/-- Claim C6: after fitting, every projected point has non-negative
coordinates, the minimum projected x and y are exactly 0 (both attained),
the maximum projected x and y are exactly the rounded-up bounding width
and height (both attained), and the settings' world size is exactly the
ceiling of those bounds. -/
theorem projector_bounds_world_size (env : Env) (args : Args) (out : Output)
    (f : Frame) (hok : mainRun env args = Except.ok out)
    (hf : fitFrame (allPoints env args) = some f) :
    (∀ q ∈ transform_coords f (allPoints env args),
        0 ≤ q.x ∧ q.x ≤ f.width ∧ 0 ≤ q.y ∧ q.y ≤ f.height) ∧
    (∃ q ∈ transform_coords f (allPoints env args), q.x = 0) ∧
    (∃ q ∈ transform_coords f (allPoints env args), q.y = 0) ∧
    (∃ q ∈ transform_coords f (allPoints env args), q.x = f.width) ∧
    (∃ q ∈ transform_coords f (allPoints env args), q.y = f.height) ∧
    out.settings.worldSize = some (⌈f.width⌉, ⌈f.height⌉) := by
  obtain ⟨f2, hf2, rfl⟩ := mainRun_ok_elim hok
  rw [hf] at hf2
  injection hf2 with he
  subst he
  obtain ⟨h1, h2, h3, h4, h5⟩ := transform_bounds hf
  exact ⟨h1, h2, h3, h4, h5, rfl⟩

/-- Witness for C6: the concrete run's world size is the ceiling of the
fitted frame's bounds. -/
theorem projector_bounds_world_size_witness :
    wOut.settings.worldSize = some (⌈unitFrame.width⌉, ⌈unitFrame.height⌉) :=
  (projector_bounds_world_size wEnv wArgs wOut unitFrame wRun_ok fitFrame_w).2.2.2.2.2

/-! ### Claim C1 — one frame, fitted over everything, used everywhere -/

/-- Claim C1: the projection frame is fitted once, over the union of all
route nodes — which contains every geometry point and (under the code's
documented invariant that route nodes include the stops, scenario.py
lines 122-123) every stop point — after all routes are resolved; and
every coordinate sequence in the output (route geometry, stops, station
points) is transformed with that one fitted frame. -/
theorem single_projection_frame (env : Env) (args : Args) (out : Output)
    (f : Frame)
    (hstops : ∀ r ∈ routesOf env args, ∀ p ∈ r.stops, p ∈ r.nodes)
    (hok : mainRun env args = Except.ok out)
    (hf : fitFrame (allPoints env args) = some f) :
    (∀ r ∈ routesOf env args, ∀ p ∈ r.nodes, p ∈ allPoints env args) ∧
    (∀ r ∈ routesOf env args, ∀ p ∈ r.stops, p ∈ allPoints env args) ∧
    (∀ r ∈ routesOf env args,
      (nodesPath env args r.name,
        FileContent.wktLinestring (transform_coords f r.nodes)) ∈ out.files ∧
      (stopsPath env args r.name,
        FileContent.csvStops (transform_coords f r.stops)
          ((tripDurations env.feed).lookup r.name)) ∈ out.files) ∧
    (stationsPath env args, FileContent.wktPoints (stationsOf env args f)) ∈
      out.files := by
  obtain ⟨f2, hf2, rfl⟩ := mainRun_ok_elim hok
  rw [hf] at hf2
  injection hf2 with he
  subst he
  have hnodes : ∀ r ∈ routesOf env args, ∀ p ∈ r.nodes, p ∈ allPoints env args := by
    intro r hr p hp
    unfold allPoints
    exact List.mem_dedup.mpr (List.mem_flatMap.mpr ⟨r, hr, hp⟩)
  refine ⟨hnodes, ?_, ?_, ?_⟩
  · intro r hr p hp
    exact hnodes r hr p (hstops r hr p hp)
  · intro r hr
    constructor
    · show _ ∈ (routesOf env args).flatMap (routeFiles env args f) ++ _
      apply List.mem_append_left
      exact List.mem_flatMap.mpr ⟨r, hr, by simp [routeFiles]⟩
    · show _ ∈ (routesOf env args).flatMap (routeFiles env args f) ++ _
      apply List.mem_append_left
      exact List.mem_flatMap.mpr ⟨r, hr, by simp [routeFiles]⟩
  · show _ ∈ (routesOf env args).flatMap (routeFiles env args f) ++ _
    apply List.mem_append_right
    simp

/-- Witness for C1: the concrete run writes the stations file with the
stop coordinates transformed by the single fitted frame. -/
theorem single_projection_frame_witness :
    (stationsPath wEnv wArgs,
      FileContent.wktPoints (stationsOf wEnv wArgs unitFrame)) ∈ wOut.files :=
  (single_projection_frame wEnv wArgs wOut unitFrame (by decide) wRun_ok
    fitFrame_w).2.2.2

/-! ### Claim C9 — host address range spans exactly the created hosts -/

/-- Claim C9: the settings' host address range starts at 0 and ends at
(number of routes × NR_OF_HOSTS) + (number of distinct station points) −
1; each route's group declares exactly NR_OF_HOSTS = 1 hosts and the
station group declares one host per distinct station point. -/
theorem events_hosts_span (env : Env) (args : Args) (out : Output) (f : Frame)
    (hok : mainRun env args = Except.ok out)
    (hf : fitFrame (allPoints env args) = some f) :
    NR_OF_HOSTS = 1 ∧
    out.settings.eventsHosts =
      some (0, ((routesOf env args).length : Int) * NR_OF_HOSTS +
        ((stationsOf env args f).length : Int) - 1) ∧
    out.settings.groups =
      (routesOf env args).map (routeGroup env args) ++
        [stationGroup env args (stationsOf env args f)] ∧
    (∀ r ∈ routesOf env args,
      ("nrofHosts", SettingVal.int NR_OF_HOSTS) ∈ (routeGroup env args r).settings) ∧
    ("nrofHosts", SettingVal.int ((stationsOf env args f).length : Int)) ∈
      (stationGroup env args (stationsOf env args f)).settings := by
  obtain ⟨f2, hf2, rfl⟩ := mainRun_ok_elim hok
  rw [hf] at hf2
  injection hf2 with he
  subst he
  refine ⟨rfl, rfl, rfl, ?_, ?_⟩
  · intro r hr
    simp [routeGroup, HostGroup.setv, HostGroup.set_okmap, HostGroup.mk0]
  · simp [stationGroup, HostGroup.setv, HostGroup.mk0]

/-- Witness for C9: the concrete run's host range field. -/
theorem events_hosts_span_witness :
    wOut.settings.eventsHosts =
      some (0, ((routesOf wEnv wArgs).length : Int) * NR_OF_HOSTS +
        ((stationsOf wEnv wArgs unitFrame).length : Int) - 1) :=
  (events_hosts_span wEnv wArgs wOut unitFrame wRun_ok fitFrame_w).2.1

/-! ### Claim C10 — stations deduplicated by projected coordinate -/

/-- Claim C10: the station set contains each distinct projected stop
coordinate exactly once (no duplicates; membership is exactly "some
route has a stop projecting there"), the stations file carries exactly
that set, and the stationary host count equals its size. -/
theorem stations_deduplicated (env : Env) (args : Args) (out : Output)
    (f : Frame) (hok : mainRun env args = Except.ok out)
    (hf : fitFrame (allPoints env args) = some f) :
    (stationsOf env args f).Nodup ∧
    (∀ p : Point, p ∈ stationsOf env args f ↔
       ∃ r ∈ routesOf env args, p ∈ transform_coords f r.stops) ∧
    (stationsPath env args, FileContent.wktPoints (stationsOf env args f)) ∈
      out.files ∧
    ("nrofHosts", SettingVal.int ((stationsOf env args f).length : Int)) ∈
      (stationGroup env args (stationsOf env args f)).settings ∧
    stationGroup env args (stationsOf env args f) ∈ out.settings.groups := by
  obtain ⟨f2, hf2, rfl⟩ := mainRun_ok_elim hok
  rw [hf] at hf2
  injection hf2 with he
  subst he
  refine ⟨List.nodup_dedup _, ?_, ?_, ?_, ?_⟩
  · intro p
    unfold stationsOf
    rw [List.mem_dedup, List.mem_flatMap]
  · show _ ∈ (routesOf env args).flatMap (routeFiles env args f) ++ _
    apply List.mem_append_right
    simp
  · simp [stationGroup, HostGroup.setv, HostGroup.mk0]
  · show _ ∈ (routesOf env args).map (routeGroup env args) ++ _
    apply List.mem_append_right
    simp

/-- Witness for C10: the concrete run's station list has no duplicate
projected coordinates. -/
theorem stations_deduplicated_witness :
    (stationsOf wEnv wArgs unitFrame).Nodup :=
  (stations_deduplicated wEnv wArgs wOut unitFrame wRun_ok fitFrame_w).1

/-! ### Claim C8 — one set of files per route, collision-free names -/

theorem nodesPath_eq (env : Env) (args : Args) (n : String) :
    nodesPath env args n = ((outDirOf env args ++ "/") ++ n) ++ "_nodes.wkt" := by
  unfold nodesPath pathJoin NODES_FILE
  simp [String.append_assoc]

theorem stopsPath_eq (env : Env) (args : Args) (n : String) :
    stopsPath env args n = ((outDirOf env args ++ "/") ++ n) ++ "_stops.csv" := by
  unfold stopsPath pathJoin STOPS_FILE
  simp [String.append_assoc]

theorem schedulePath_eq (env : Env) (args : Args) (n : String) :
    schedulePath env args n = ((outDirOf env args ++ "/") ++ n) ++ "_schedule.csv" := by
  unfold schedulePath pathJoin SCHEDULE_FILE
  simp [String.append_assoc]

theorem stationsPath_eq (env : Env) (args : Args) :
    stationsPath env args = (outDirOf env args ++ "/") ++ "stations.wkt" := rfl

theorem nodesPath_ne_stopsPath (env : Env) (args : Args) (n m : String) :
    nodesPath env args n ≠ stopsPath env args m := by
  rw [nodesPath_eq, stopsPath_eq]
  exact strAppend_ne_of_suffix 1 (by decide) (by decide) (by decide) _ _

theorem nodesPath_ne_schedulePath (env : Env) (args : Args) (n m : String) :
    nodesPath env args n ≠ schedulePath env args m := by
  rw [nodesPath_eq, schedulePath_eq]
  exact strAppend_ne_of_suffix 1 (by decide) (by decide) (by decide) _ _

theorem stopsPath_ne_schedulePath (env : Env) (args : Args) (n m : String) :
    stopsPath env args n ≠ schedulePath env args m := by
  rw [stopsPath_eq, schedulePath_eq]
  exact strAppend_ne_of_suffix 5 (by decide) (by decide) (by decide) _ _

theorem stationsPath_ne_nodesPath (env : Env) (args : Args) (n : String) :
    stationsPath env args ≠ nodesPath env args n := by
  rw [stationsPath_eq, nodesPath_eq]
  exact strAppend_ne_of_suffix 6 (by decide) (by decide) (by decide) _ _

theorem stationsPath_ne_stopsPath (env : Env) (args : Args) (n : String) :
    stationsPath env args ≠ stopsPath env args n := by
  rw [stationsPath_eq, stopsPath_eq]
  exact strAppend_ne_of_suffix 1 (by decide) (by decide) (by decide) _ _

theorem stationsPath_ne_schedulePath (env : Env) (args : Args) (n : String) :
    stationsPath env args ≠ schedulePath env args n := by
  rw [stationsPath_eq, schedulePath_eq]
  exact strAppend_ne_of_suffix 1 (by decide) (by decide) (by decide) _ _

theorem nodesPath_inj (env : Env) (args : Args) {n m : String}
    (h : nodesPath env args n = nodesPath env args m) : n = m := by
  rw [nodesPath_eq, nodesPath_eq] at h
  exact strAppend_cancel_left (strAppend_cancel_right h)

theorem stopsPath_inj (env : Env) (args : Args) {n m : String}
    (h : stopsPath env args n = stopsPath env args m) : n = m := by
  rw [stopsPath_eq, stopsPath_eq] at h
  exact strAppend_cancel_left (strAppend_cancel_right h)

theorem schedulePath_inj (env : Env) (args : Args) {n m : String}
    (h : schedulePath env args n = schedulePath env args m) : n = m := by
  rw [schedulePath_eq, schedulePath_eq] at h
  exact strAppend_cancel_left (strAppend_cancel_right h)

theorem pathTriple_nodup (env : Env) (args : Args) (n : String) :
    (pathTriple env args n).Nodup := by
  have h1 := nodesPath_ne_stopsPath env args n n
  have h2 := nodesPath_ne_schedulePath env args n n
  have h3 := stopsPath_ne_schedulePath env args n n
  simp [pathTriple, List.nodup_cons, h1, h2, h3]

theorem pathTriple_disjoint (env : Env) (args : Args) {n m : String} (hnm : n ≠ m) :
    ∀ a ∈ pathTriple env args n, a ∉ pathTriple env args m := by
  intro a ha hb
  simp only [pathTriple, List.mem_cons, List.mem_singleton, List.not_mem_nil,
    or_false] at ha hb
  rcases ha with rfl | rfl | rfl <;> rcases hb with hb | hb | hb
  · exact hnm (nodesPath_inj env args hb)
  · exact nodesPath_ne_stopsPath env args n m hb
  · exact nodesPath_ne_schedulePath env args n m hb
  · exact nodesPath_ne_stopsPath env args m n hb.symm
  · exact hnm (stopsPath_inj env args hb)
  · exact stopsPath_ne_schedulePath env args n m hb
  · exact nodesPath_ne_schedulePath env args m n hb.symm
  · exact stopsPath_ne_schedulePath env args m n hb.symm
  · exact hnm (schedulePath_inj env args hb)

theorem stationsPath_not_in_triple (env : Env) (args : Args) (n : String) :
    stationsPath env args ∉ pathTriple env args n := by
  intro hb
  simp only [pathTriple, List.mem_cons, List.mem_singleton, List.not_mem_nil,
    or_false] at hb
  rcases hb with hb | hb | hb
  · exact stationsPath_ne_nodesPath env args n hb
  · exact stationsPath_ne_stopsPath env args n hb
  · exact stationsPath_ne_schedulePath env args n hb

theorem flatPaths_nodup (env : Env) (args : Args) :
    ∀ names : List String, names.Nodup →
      (names.flatMap (pathTriple env args) ++ [stationsPath env args]).Nodup := by
  intro names
  induction names with
  | nil =>
      intro _
      simp
  | cons n ns ih =>
      intro hnd
      rw [List.flatMap_cons, List.append_assoc]
      apply List.Nodup.append (pathTriple_nodup env args n)
        (ih (List.Nodup.of_cons hnd))
      intro a ha hb
      rcases List.mem_append.mp hb with hb | hb
      · rcases List.mem_flatMap.mp hb with ⟨m, hm, ham⟩
        have hnm : n ≠ m := by
          intro he
          subst he
          exact (List.nodup_cons.mp hnd).1 hm
        exact pathTriple_disjoint env args hnm a ha ham
      · rw [List.mem_singleton.mp hb] at ha
        exact stationsPath_not_in_triple env args n ha

theorem mainOutput_paths (env : Env) (args : Args) (f : Frame) :
    (mainOutput env args f).files.map Prod.fst =
      (routesOf env args).flatMap (fun r => pathTriple env args r.name) ++
        [stationsPath env args] := by
  show ((routesOf env args).flatMap (routeFiles env args f) ++ _).map Prod.fst = _
  rw [List.map_append, List.map_flatMap]
  simp [routeFiles, pathTriple]

/-- Claim C8: a successful run with pairwise distinct route identifiers
produces exactly one nodes file, one stops file and one schedule file per
route under collision-free names derived from the route identifier, plus
exactly one shared stations file and one settings manifest. -/
theorem per_route_output_files (env : Env) (args : Args) (out : Output)
    (f : Frame) (hok : mainRun env args = Except.ok out)
    (hf : fitFrame (allPoints env args) = some f)
    (hnames : ((routesOf env args).map TransitRoute.name).Nodup) :
    (out.files.map Prod.fst).Nodup ∧
    (∀ r ∈ routesOf env args,
      (out.files.map Prod.fst).count (nodesPath env args r.name) = 1 ∧
      (out.files.map Prod.fst).count (stopsPath env args r.name) = 1 ∧
      (out.files.map Prod.fst).count (schedulePath env args r.name) = 1) ∧
    (out.files.map Prod.fst).count (stationsPath env args) = 1 ∧
    out.settingsPath =
      pathJoin env.oneDir (basename_without_ext args.gtfs_file ++ "_settings.txt") := by
  obtain ⟨f2, hf2, rfl⟩ := mainRun_ok_elim hok
  rw [hf] at hf2
  injection hf2 with he
  subst he
  have hflat : ∀ l : List TransitRoute,
      l.flatMap (fun r => pathTriple env args r.name) =
        (l.map TransitRoute.name).flatMap (pathTriple env args) := by
    intro l
    induction l with
    | nil => rfl
    | cons r rs ih => simp [ih]
  have hpaths : (mainOutput env args f).files.map Prod.fst =
      ((routesOf env args).map TransitRoute.name).flatMap (pathTriple env args) ++
        [stationsPath env args] := by
    rw [mainOutput_paths, hflat]
  have hnodup := flatPaths_nodup env args _ hnames
  rw [hpaths]
  refine ⟨hnodup, ?_, ?_, rfl⟩
  · intro r hr
    have hnmem : r.name ∈ (routesOf env args).map TransitRoute.name :=
      List.mem_map_of_mem _ hr
    refine ⟨?_, ?_, ?_⟩ <;>
      exact List.count_eq_one_of_mem hnodup
        (List.mem_append_left _
          (List.mem_flatMap.mpr ⟨r.name, hnmem, by simp [pathTriple]⟩))
  · exact List.count_eq_one_of_mem hnodup (List.mem_append_right _ (by simp))

/-- Witness for C8: in the concrete run the shared stations file appears
exactly once. -/
theorem per_route_output_files_witness :
    (wOut.files.map Prod.fst).count (stationsPath wEnv wArgs) = 1 :=
  (per_route_output_files wEnv wArgs wOut unitFrame wRun_ok fitFrame_w
    (by decide)).2.2.1
